import Mathlib

/-!
Verification of the record/replay HTTP test harness
(`protocol_test.py`, `record.py`, `test.py`).

The development shallowly embeds the Python source:

* Python `bytes` are `List Nat` (each element a byte value `< 256`);
  Python `str` is `List Nat` of Unicode code points (CPython's
  `bytes.decode('utf-8')` / `str.encode('utf-8')` are modelled by a
  strict UTF-8 decoder/encoder below — strict means overlong forms,
  surrogates and out-of-range values are rejected, exactly as CPython's
  `utf-8` codec does).
* A Python function that can raise is an `Option`/`Except` returning
  function; `none` / `.error` means the call raises.
* `json.dumps`/`json.loads` on a dict of strings and string-pair lists is
  lossless, so the "durable text" produced by `serialize` is modelled as
  the structured value the JSON text denotes (`SerializedState`), and the
  JSON layer itself as the identity on that structure.
-/

namespace Crucible

/-! ## UTF-8 codec (model of CPython's strict `utf-8` codec)

`protocol_test.py`:
```
def dec(b: bytes) -> str:
    return b.decode('utf-8')

def enc(s: str) -> bytes:
    return s.encode('utf-8')
```
-/

/-- Byte sequence for one Unicode scalar value (the standard UTF-8
encoding; meaningful for `c ≤ 0x10FFFF`). -/
def encChar (c : Nat) : List Nat :=
  if c < 0x80 then [c]
  else if c < 0x800 then [0xC0 + c / 64, 0x80 + c % 64]
  else if c < 0x10000 then [0xE0 + c / 4096, 0x80 + c / 64 % 64, 0x80 + c % 64]
  else [0xF0 + c / 262144, 0x80 + c / 4096 % 64, 0x80 + c / 64 % 64, 0x80 + c % 64]

/-- CPython's `str.encode('utf-8')` raises `UnicodeEncodeError` on lone
surrogates (U+D800–U+DFFF) and there are no code points above U+10FFFF. -/
def encCharStrict (c : Nat) : Option (List Nat) :=
  if 0xD800 ≤ c ∧ c < 0xE000 then none
  else if 0x10FFFF < c then none
  else some (encChar c)

/-- `enc : str -> bytes`, i.e. `s.encode('utf-8')`. -/
def enc (cs : List Nat) : Option (List Nat) :=
  (cs.mapM encCharStrict).map List.flatten

/-- Decode one UTF-8-encoded scalar from the front of a byte list,
returning the code point and the remaining bytes.  Rejects continuation
bytes in lead position, overlong encodings, surrogates, values above
U+10FFFF and truncated sequences — CPython's strict `utf-8` decoder. -/
def decodeOne : List Nat → Option (Nat × List Nat)
  | [] => none
  | b0 :: tl =>
    if b0 < 0x80 then some (b0, tl)
    else if b0 < 0xC2 then none
    else if b0 < 0xE0 then
      match tl with
      | b1 :: tl1 =>
        if 0x80 ≤ b1 ∧ b1 < 0xC0 then
          some ((b0 - 0xC0) * 64 + (b1 - 0x80), tl1)
        else none
      | [] => none
    else if b0 < 0xF0 then
      match tl with
      | b1 :: b2 :: tl2 =>
        if (0x80 ≤ b1 ∧ b1 < 0xC0) ∧ (0x80 ≤ b2 ∧ b2 < 0xC0) then
          let c := (b0 - 0xE0) * 4096 + (b1 - 0x80) * 64 + (b2 - 0x80)
          if c < 0x800 ∨ (0xD800 ≤ c ∧ c < 0xE000) then none else some (c, tl2)
        else none
      | _ => none
    else if b0 < 0xF5 then
      match tl with
      | b1 :: b2 :: b3 :: tl3 =>
        if (0x80 ≤ b1 ∧ b1 < 0xC0) ∧ ((0x80 ≤ b2 ∧ b2 < 0xC0) ∧ (0x80 ≤ b3 ∧ b3 < 0xC0)) then
          let c := (b0 - 0xF0) * 262144 + (b1 - 0x80) * 4096 + (b2 - 0x80) * 64 + (b3 - 0x80)
          if c < 0x10000 ∨ 0x10FFFF < c then none else some (c, tl3)
        else none
      | _ => none
    else none

/-- Fuel-driven decode loop (the fuel is an upper bound on the byte
count; each step consumes at least one byte). -/
def decLoop : Nat → List Nat → Option (List Nat)
  | _, [] => some []
  | 0, _ :: _ => none
  | fuel + 1, b0 :: tl =>
    match decodeOne (b0 :: tl) with
    | none => none
    | some (c, rest) => (decLoop fuel rest).map (c :: ·)

/-- `dec : bytes -> str`, i.e. `b.decode('utf-8')`; `none` models the
`UnicodeDecodeError` CPython raises on non-UTF-8 input. -/
def dec (bs : List Nat) : Option (List Nat) :=
  decLoop bs.length bs

/-! ## Message codec (`serialize` / `deserialize`)

`protocol_test.py`:
```
FIELDS = ['content', 'http_version', 'scheme', 'authority', 'path', 'method', 'reason']

def serialize(operation):
    state = operation.get_state()
    for field in FIELDS:
        if field in state:
            state[field] = dec(state[field])
    state['headers'] = [(dec(k), dec(v)) for k, v in state['headers']]
    return json.dumps(state, indent=2)

def deserialize(data):
    state = json.loads(data)
    for field in FIELDS:
        if field in state:
            state[field] = enc(state[field])
    state['headers'] = [(enc(k), enc(v)) for k, v in state['headers']]
    return state
```

The message state (`operation.get_state()` of a mitmproxy request or
response) is modelled field-for-field: each of the seven byte-valued
`FIELDS` is `Option (List Nat)` (`none` = key absent from the state
dict, e.g. `reason` on a request), and `headers` is the ordered list of
(name, value) byte pairs, duplicates and order preserved. -/

structure MessageState where
  content : Option (List Nat)
  http_version : Option (List Nat)
  scheme : Option (List Nat)
  authority : Option (List Nat)
  path : Option (List Nat)
  method : Option (List Nat)
  reason : Option (List Nat)
  headers : List (List Nat × List Nat)
deriving DecidableEq

/-- The structured value denoted by the JSON text `serialize` emits: the
same shape with every byte field decoded to a code-point string. -/
structure SerializedState where
  content : Option (List Nat)
  http_version : Option (List Nat)
  scheme : Option (List Nat)
  authority : Option (List Nat)
  path : Option (List Nat)
  method : Option (List Nat)
  reason : Option (List Nat)
  headers : List (List Nat × List Nat)
deriving DecidableEq

/-- `if field in state: state[field] = dec(state[field])` — an absent
key is left absent, a present one must decode or the call raises. -/
def decField : Option (List Nat) → Option (Option (List Nat))
  | none => some none
  | some b => (dec b).map some

/-- `if field in state: state[field] = enc(state[field])`. -/
def encField : Option (List Nat) → Option (Option (List Nat))
  | none => some none
  | some s => (enc s).map some

/-- `[(dec(k), dec(v)) for k, v in state['headers']]`. -/
def decHeaders : List (List Nat × List Nat) → Option (List (List Nat × List Nat))
  | [] => some []
  | (k, v) :: tl => do
    let k' ← dec k
    let v' ← dec v
    let tl' ← decHeaders tl
    pure ((k', v') :: tl')

/-- `[(enc(k), enc(v)) for k, v in state['headers']]`. -/
def encHeaders : List (List Nat × List Nat) → Option (List (List Nat × List Nat))
  | [] => some []
  | (k, v) :: tl => do
    let k' ← enc k
    let v' ← enc v
    let tl' ← encHeaders tl
    pure ((k', v') :: tl')

def serialize (st : MessageState) : Option SerializedState := do
  let content ← decField st.content
  let http_version ← decField st.http_version
  let scheme ← decField st.scheme
  let authority ← decField st.authority
  let path ← decField st.path
  let method ← decField st.method
  let reason ← decField st.reason
  let headers ← decHeaders st.headers
  pure ⟨content, http_version, scheme, authority, path, method, reason, headers⟩

def deserialize (s : SerializedState) : Option MessageState := do
  let content ← encField s.content
  let http_version ← encField s.http_version
  let scheme ← encField s.scheme
  let authority ← encField s.authority
  let path ← encField s.path
  let method ← encField s.method
  let reason ← encField s.reason
  let headers ← encHeaders s.headers
  pure ⟨content, http_version, scheme, authority, path, method, reason, headers⟩

/-- A message whose body is the single byte `0xFF` (not valid UTF-8). -/
def badUtf8Msg : MessageState :=
  ⟨some [0xFF], none, none, none, none, none, none, []⟩

/-- A message with a two-byte UTF-8 body and duplicate headers. -/
def roundTripMsg : MessageState :=
  ⟨some [65, 47, 0xC3, 0xA9], some [49], none, none, none, none, none,
    [([72], [105, 44]), ([72], [106])]⟩

/-- Its durable (serialized) form: code points `[65, 47, 233]` etc. -/
def roundTripSer : SerializedState :=
  ⟨some [65, 47, 233], some [49], none, none, none, none, none,
    [([72], [105, 44]), ([72], [106])]⟩

/-! ## Python strings

A Python `str` is a sequence of Unicode code points; decoding with
`surrogateescape` (used by mitmproxy's string views) can produce lone
surrogates, which Lean `Char` cannot hold, so `str` is modelled as
`List Nat` throughout. -/

abbrev PyStr := List Nat

/-- Code points of a Lean string literal (all our literals are ASCII). -/
def pystr (s : String) : PyStr := s.toList.map Char.toNat

/-- `bytes.lower()` lowercases ASCII letters only; mitmproxy's `Headers`
compares header names after `.lower()`. -/
def asciiLower (c : Nat) : Nat :=
  if 65 ≤ c ∧ c ≤ 90 then c + 32 else c

def lowerStr (s : PyStr) : PyStr := s.map asciiLower

/-- `name in request.headers` (mitmproxy `Headers`: case-insensitive). -/
def headerMem (hs : List (PyStr × PyStr)) (k : PyStr) : Bool :=
  hs.any (fun p => lowerStr p.1 == lowerStr k)

/-- `request.headers[name]` (mitmproxy `Headers`: case-insensitive;
multiple values for the same name are joined with `", "`). -/
def headerGet (hs : List (PyStr × PyStr)) (k : PyStr) : PyStr :=
  List.intercalate (pystr ", ") ((hs.filter (fun p => lowerStr p.1 == lowerStr k)).map Prod.snd)

/-! ## HTTP objects

A mitmproxy `HTTPRequest` is its wire-level state (`MessageState`,
what `get_state()` returns and the codec serializes) together with the
string views the library derives from it (`host`, `url`, `method`,
`headers`); the views are carried as fields because their derivation
lives in the proxy engine, outside this repository. -/

structure HTTPRequest where
  host : PyStr
  url : PyStr
  method : PyStr
  headers : List (PyStr × PyStr)
  state : MessageState
deriving DecidableEq

def HTTPRequest.content (r : HTTPRequest) : Option (List Nat) := r.state.content

structure HTTPResponse where
  state : MessageState
deriving DecidableEq

/-- Decode with `errors='surrogateescape'`: an undecodable byte `b`
(always `≥ 0x80`) becomes the lone surrogate `0xDC00 + b`. Models the
proxy engine's byte-to-str view layer. -/
def surrogateEscapeLoop : Nat → List Nat → PyStr
  | _, [] => []
  | 0, _ :: _ => []
  | fuel + 1, b0 :: tl =>
    match decodeOne (b0 :: tl) with
    | some (c, rest) => c :: surrogateEscapeLoop fuel rest
    | none => (0xDC00 + b0 % 256) :: surrogateEscapeLoop fuel tl

def pyDecodeSE (bs : List Nat) : PyStr := surrogateEscapeLoop bs.length bs

/-- `http.HTTPRequest.from_state(state)`: rebuild the request object; the
string views are mitmproxy's derived properties (out-of-scope engine
code, modelled with `surrogateescape` decoding; no theorem below
examines the views of a loaded request). -/
def HTTPRequest.from_state (st : MessageState) : HTTPRequest :=
  { host := pyDecodeSE (st.authority.getD [])
    url := pyDecodeSE (st.scheme.getD []) ++ pystr "://" ++
      pyDecodeSE (st.authority.getD []) ++ pyDecodeSE (st.path.getD [])
    method := pyDecodeSE (st.method.getD [])
    headers := st.headers.map (fun p => (pyDecodeSE p.1, pyDecodeSE p.2))
    state := st }

def HTTPResponse.from_state (st : MessageState) : HTTPResponse := ⟨st⟩

/-! ## Protocol expectation model (`protocol_test.py`) -/

def MUST_MATCH_HEADERS : List PyStr :=
  [pystr "Host", pystr "X-Amz-Target", pystr "Content-Type"]

def MUST_EXIST_HEADERS : List PyStr :=
  [pystr "Authorization", pystr "X-Amz-Date"]

/-- The `ProtocolTest` dataclass.  `params` and `vendorParams` are
`Dict[str, Any]` holding only string values in this program, modelled as
ordered association lists. -/
structure ProtocolTest where
  id : PyStr
  body : Option PyStr
  method : PyStr
  uri : PyStr
  authScheme : Option PyStr
  queryParams : List PyStr
  forbidQueryParams : List PyStr
  requireQueryParams : List PyStr
  headers : List (PyStr × PyStr)
  forbidHeaders : List PyStr
  requireHeaders : List PyStr
  params : List (PyStr × PyStr)
  vendorParams : List (PyStr × PyStr)
  documentation : PyStr
deriving DecidableEq

/-- `ProtocolTest.from_request`.  `request.content.decode('utf-8')`
raises (`none`) when the body is absent or not valid UTF-8; the
`headers` dict comprehension keeps allow-list order. -/
def ProtocolTest.from_request (r : HTTPRequest) : Option ProtocolTest :=
  let headers := (MUST_MATCH_HEADERS.filter (fun n => headerMem r.headers n)).map
    (fun n => (n, headerGet r.headers n))
  match r.state.content with
  | none => none
  | some b =>
    (dec b).map fun body =>
      { id := pystr "todo"
        body := some body
        method := r.method
        uri := r.url
        authScheme := none
        queryParams := []
        forbidQueryParams := []
        requireQueryParams := []
        headers := headers
        forbidHeaders := []
        requireHeaders := MUST_EXIST_HEADERS
        params := [(pystr "todo", pystr "todo")]
        vendorParams := []
        documentation := pystr "todo" }

/-- `ProtocolTest.validate_request`: the only check the code performs is
URL equality. -/
def ProtocolTest.validate_request (pt : ProtocolTest) (r : HTTPRequest) : List PyStr :=
  if r.url ≠ pt.uri then
    [pystr "Incorrect URL actual: " ++ r.url ++ pystr " expected: " ++ pt.uri]
  else []

structure Action where
  request : HTTPRequest
  response : HTTPResponse
  request_validator : Option ProtocolTest
deriving DecidableEq

structure TestCase where
  id : PyStr
  actions : List Action
deriving DecidableEq

/-! ## Test case store (`load_testcase` in `protocol_test.py`)

The on-disk test directory is modelled as, per index `i`, the (parsed)
contents of the three sibling artifacts, `none` meaning the file does
not exist; `dirExists` is `(BASE_DIR / test_id).exists()`. -/

structure IndexFiles where
  request : Option SerializedState
  response : Option SerializedState
  protocolTest : Option ProtocolTest
deriving DecidableEq

inductive LoadError
  /-- `raise Exception("test case does not exist")` -/
  | notFound
  /-- `open()` on a missing sibling artifact raises `FileNotFoundError` -/
  | fileNotFound
  /-- `deserialize`/`from_state` raises on the file's contents -/
  | badData
deriving DecidableEq

/-- The body of `for i in range(100)`: scan indices from `i` with
`fuel` loop iterations left, breaking at the first missing
`i.request.json`, raising when a sibling artifact is missing or a file
fails to decode. -/
def loadLoop (files : Nat → IndexFiles) : Nat → Nat → Except LoadError (List Action)
  | _, 0 => .ok []
  | i, fuel + 1 =>
    match (files i).request with
    | none => .ok []
    | some reqSer =>
      match deserialize reqSer with
      | none => .error .badData
      | some reqState =>
        match (files i).response with
        | none => .error .fileNotFound
        | some respSer =>
          match deserialize respSer with
          | none => .error .badData
          | some respState =>
            match (files i).protocolTest with
            | none => .error .fileNotFound
            | some pt =>
              match loadLoop files (i + 1) fuel with
              | .error e => .error e
              | .ok rest =>
                .ok (⟨HTTPRequest.from_state reqState, HTTPResponse.from_state respState,
                  some pt⟩ :: rest)

/-- `load_testcase(test_id)`. -/
def load_testcase (test_id : PyStr) (dirExists : Bool) (files : Nat → IndexFiles) :
    Except LoadError TestCase :=
  if dirExists then
    (loadLoop files 0 100).map fun actions => ⟨test_id, actions⟩
  else .error .notFound

/-! ## Replay controller (`test.py`) -/

structure TestState where
  requests : List HTTPRequest
  test_case : TestCase
deriving DecidableEq

/-- `TestState.next_response`. -/
def TestState.next_response (s : TestState) : Option HTTPResponse :=
  if h : s.test_case.actions.length > s.requests.length then
    some ((s.test_case.actions.get ⟨s.requests.length, h⟩).response)
  else none

/-- What happens to one intercepted flow. -/
inductive FlowOutcome
  /-- the handler did nothing; the proxy forwards the flow normally -/
  | passedThrough
  /-- `flow.kill()` -/
  | killed
  /-- `flow.response = resp; flow.is_replay = "response"` -/
  | replied (resp : HTTPResponse)
deriving DecidableEq

structure HTTPFlow where
  request : HTTPRequest
  response : HTTPResponse
deriving DecidableEq

/-- The `Test.request` interception hook: global `test_state` in,
updated `test_state` and the flow's fate out. -/
def Test.request (ts : Option TestState) (flow : HTTPFlow) :
    Option TestState × FlowOutcome :=
  match ts with
  | none => (none, .passedThrough)
  | some s =>
    if flow.request.host ≠ pystr "crucible" then
      let next := s.next_response
      let s' : TestState := { s with requests := s.requests ++ [flow.request] }
      match next with
      | none => (some s', .killed)
      | some resp => (some s', .replied resp)
    else (some s, .passedThrough)

/-- A replay run: the hook fired once per flow, in order. -/
def runReplay (ts : Option TestState) : List HTTPFlow → Option TestState × List FlowOutcome
  | [] => (ts, [])
  | f :: fs =>
    let step := Test.request ts f
    let rest := runReplay step.1 fs
    (rest.1, step.2 :: rest.2)

inductive CheckResult
  /-- `{"status": "error", "msg": ...}` -/
  | errorMsg (msg : PyStr)
  /-- `{"status": "ok", "msg": ...}` -/
  | okMsg (msg : PyStr)
  /-- `{"status": "ok", "errors": ...}` -/
  | okErrors (errors : List PyStr)
deriving DecidableEq

/-- The error accumulation loop of `check_test`
(`for request, action in zip(...)`). -/
def checkErrors (reqs : List HTTPRequest) (acts : List Action) : List PyStr :=
  ((reqs.zip acts).map (fun p =>
    match p.2.request_validator with
    | some pt => pt.validate_request p.1
    | none => [pystr "Action did not have validator"])).flatten

/-- `check_test`.  The source's `elif dataclass:` tests the (always
truthy) `dataclass` function object, so it is an unconditional else. -/
def check_test (ts : Option TestState) : CheckResult :=
  match ts with
  | none => .errorMsg (pystr "No test case in progress")
  | some s =>
    if s.requests.length ≠ s.test_case.actions.length then
      .okMsg (pystr "Wrong number of requests received")
    else
      .okErrors (checkErrors s.requests s.test_case.actions)

/-! ## Recording controller (`record.py`) -/

/-- Python truthiness of the global `test_id : Optional[str]`
(`if test_id and ...`): `None` and `""` are falsy. -/
def pyTruthyStr : Option PyStr → Bool
  | none => false
  | some s => s ≠ []

/-- The `Record.response` interception hook: returns the updated
`recording` list. -/
def Record.response (test_id : Option PyStr) (recording : List Action)
    (flow : HTTPFlow) : List Action :=
  if pyTruthyStr test_id ∧ flow.request.host ≠ pystr "crucible" then
    recording ++ [⟨flow.request, flow.response, none⟩]
  else recording

/-- One file written by `save`. -/
inductive WriteEntry
  /-- `<i>.request.json` -/
  | requestFile (i : Nat) (s : SerializedState)
  /-- `<i>.response.json` -/
  | responseFile (i : Nat) (s : SerializedState)
  /-- `<i>.protocolTest.json` -/
  | protocolTestFile (i : Nat) (pt : ProtocolTest)
deriving DecidableEq

/-- One iteration of `save`'s loop: serialize the exchange and derive
its default expectation; any raise (`none`) aborts `save`. -/
def saveAction (i : Nat) (a : Action) : Option (List WriteEntry) := do
  let reqSer ← serialize a.request.state
  let respSer ← serialize a.response.state
  let pt ← ProtocolTest.from_request a.request
  pure [.requestFile i reqSer, .responseFile i respSer, .protocolTestFile i pt]

def saveLoop : Nat → List Action → Option (List WriteEntry)
  | _, [] => some []
  | i, a :: tl => do
    let ws ← saveAction i a
    let rest ← saveLoop (i + 1) tl
    pure (ws ++ rest)

/-- `save()`: with `test_id = None`, `BASE_DIR / test_id` raises
`TypeError` before anything is written. -/
def save (test_id : Option PyStr) (recording : List Action) : Option (List WriteEntry) :=
  match test_id with
  | none => none
  | some _ => saveLoop 0 recording

/-- `stop_recording()`: calls `save()`, then reports
`{"status": "ok", "actions": len(recording)}` and resets the globals to
`(None, [])`.  `none` models the unhandled exception escaping the
endpoint. -/
def stop_recording (test_id : Option PyStr) (recording : List Action) :
    Option ((PyStr × Nat) × (Option PyStr × List Action)) :=
  (save test_id recording).map fun _ => ((pystr "ok", recording.length), (none, []))

/-! ## Concrete fixtures (used by witnesses and counterexamples) -/

def emptyState : MessageState := ⟨none, none, none, none, none, none, none, []⟩

def reqEx : HTTPRequest :=
  ⟨pystr "example.com", pystr "http://example.com/ping", pystr "GET", [],
    { emptyState with content := some [] }⟩

def respEx : HTTPResponse := ⟨emptyState⟩

def actEx : Action := ⟨reqEx, respEx, none⟩

def tsEx : TestState := ⟨[], ⟨pystr "echo", [actEx]⟩⟩

def flowEx : HTTPFlow := ⟨reqEx, respEx⟩

def selfReq : HTTPRequest := { reqEx with host := pystr "crucible" }

def selfFlow : HTTPFlow := ⟨selfReq, respEx⟩

/-! ## Expectation model claims -/

/-- An expectation with a non-empty must-match header clause. -/
def ptHost : ProtocolTest :=
  { id := pystr "t"
    body := none
    method := pystr "POST"
    uri := pystr "http://example.com/"
    authScheme := none
    queryParams := []
    forbidQueryParams := []
    requireQueryParams := []
    headers := [(pystr "Host", pystr "example.com")]
    forbidHeaders := []
    requireHeaders := MUST_EXIST_HEADERS
    params := []
    vendorParams := []
    documentation := pystr "" }

/-- A live request with the expected URI but no headers at all. -/
def reqNoHeaders : HTTPRequest :=
  ⟨pystr "example.com", pystr "http://example.com/", pystr "POST", [], emptyState⟩

/-- A live request with the wrong URI. -/
def reqWrongUri : HTTPRequest :=
  ⟨pystr "example.com", pystr "http://example.com/other", pystr "POST", [], emptyState⟩

/-- An observed request with a UTF-8 body, a `Host` header and an
unrelated `Accept` header. -/
def reqObserved : HTTPRequest :=
  ⟨pystr "svc.amazonaws.com", pystr "https://svc.amazonaws.com/", pystr "POST",
    [(pystr "Host", pystr "svc.amazonaws.com"), (pystr "Accept", pystr "x")],
    { emptyState with content := some (pystr "hello") }⟩

/-- The expectation `from_request` derives from `reqObserved`. -/
def ptObserved : ProtocolTest :=
  { id := pystr "todo"
    body := some (pystr "hello")
    method := pystr "POST"
    uri := pystr "https://svc.amazonaws.com/"
    authScheme := none
    queryParams := []
    forbidQueryParams := []
    requireQueryParams := []
    headers := [(pystr "Host", pystr "svc.amazonaws.com")]
    forbidHeaders := []
    requireHeaders := MUST_EXIST_HEADERS
    params := [(pystr "todo", pystr "todo")]
    vendorParams := []
    documentation := pystr "todo" }

/-- A recorded request whose body is the lone byte `0xFF`. -/
def badBodyReq : HTTPRequest :=
  ⟨pystr "example.com", pystr "http://example.com/bin", pystr "POST", [],
    { emptyState with content := some [0xFF] }⟩

def badBodyAct : Action := ⟨badBodyReq, respEx, none⟩

/-- A trivially deserializable artifact (empty body, no other fields). -/
def serTrivial : SerializedState := ⟨some [], none, none, none, none, none, none, []⟩

def stTrivial : MessageState := ⟨some [], none, none, none, none, none, none, []⟩

/-- A store holding one complete action at index 0. -/
def filesOne : Nat → IndexFiles := fun i =>
  if i = 0 then ⟨some serTrivial, some serTrivial, some ptObserved⟩
  else ⟨none, none, none⟩

/-- A store whose index 0 has a request artifact but no response. -/
def filesCorrupt : Nat → IndexFiles := fun i =>
  if i = 0 then ⟨some serTrivial, none, none⟩
  else ⟨none, none, none⟩

def tcLoaded : TestCase :=
  ⟨pystr "t",
    [⟨HTTPRequest.from_state stTrivial, HTTPResponse.from_state stTrivial, some ptObserved⟩]⟩

theorem decodeOne_length {bs : List Nat} {c : Nat} {rest : List Nat}
    (h : decodeOne bs = some (c, rest)) : rest.length < bs.length := by
  match bs with
  | [] => simp [decodeOne] at h
  | b0 :: tl =>
    unfold decodeOne at h
    by_cases h0 : b0 < 0x80
    · simp [h0] at h
      obtain ⟨_, h⟩ := h
      simp [← h]
    · by_cases h1 : b0 < 0xC2
      · simp [h0, h1] at h
      · by_cases h2 : b0 < 0xE0
        · simp only [if_neg h0, if_neg h1, if_pos h2] at h
          match tl with
          | [] => simp at h
          | b1 :: tl1 =>
            by_cases hb1 : 0x80 ≤ b1 ∧ b1 < 0xC0
            · simp [hb1] at h
              obtain ⟨_, h⟩ := h
              simp [← h, List.length_cons]
              omega
            · simp [hb1] at h
        · by_cases h3 : b0 < 0xF0
          · simp only [if_neg h0, if_neg h1, if_neg h2, if_pos h3] at h
            match tl with
            | [] => simp at h
            | [b1] => simp at h
            | b1 :: b2 :: tl2 =>
              by_cases hb : (0x80 ≤ b1 ∧ b1 < 0xC0) ∧ (0x80 ≤ b2 ∧ b2 < 0xC0)
              · simp only [if_pos hb] at h
                split at h
                · simp at h
                · simp at h
                  obtain ⟨_, h⟩ := h
                  simp [← h, List.length_cons]
                  omega
              · simp [hb] at h
          · by_cases h4 : b0 < 0xF5
            · simp only [if_neg h0, if_neg h1, if_neg h2, if_neg h3, if_pos h4] at h
              match tl with
              | [] => simp at h
              | [b1] => simp at h
              | [b1, b2] => simp at h
              | b1 :: b2 :: b3 :: tl3 =>
                by_cases hb : (0x80 ≤ b1 ∧ b1 < 0xC0) ∧ ((0x80 ≤ b2 ∧ b2 < 0xC0) ∧ (0x80 ≤ b3 ∧ b3 < 0xC0))
                · simp only [if_pos hb] at h
                  split at h
                  · simp at h
                  · simp at h
                    obtain ⟨_, h⟩ := h
                    simp [← h, List.length_cons]
                    omega
                · simp [hb] at h
            · simp [h0, h1, h2, h3, h4] at h

theorem encStrict_one {b0 : Nat} (h : b0 < 0x80) :
    encCharStrict b0 = some [b0] := by
  unfold encCharStrict encChar
  rw [if_neg (by omega), if_neg (by omega), if_pos h]

theorem encStrict_two {b0 b1 : Nat} (h0 : 0xC2 ≤ b0) (h1 : b0 < 0xE0)
    (h2 : 0x80 ≤ b1) (h3 : b1 < 0xC0) :
    encCharStrict ((b0 - 0xC0) * 64 + (b1 - 0x80)) = some [b0, b1] := by
  unfold encCharStrict encChar
  rw [if_neg (by omega), if_neg (by omega), if_neg (by omega), if_pos (by omega)]
  simp only [Option.some.injEq, List.cons.injEq, and_true]
  refine ⟨by omega, by omega⟩

theorem encStrict_three {b0 b1 b2 : Nat} (h0 : 0xE0 ≤ b0) (h1 : b0 < 0xF0)
    (h2 : 0x80 ≤ b1) (h3 : b1 < 0xC0) (h4 : 0x80 ≤ b2) (h5 : b2 < 0xC0)
    (hv : ¬((b0 - 0xE0) * 4096 + (b1 - 0x80) * 64 + (b2 - 0x80) < 0x800 ∨
      (0xD800 ≤ (b0 - 0xE0) * 4096 + (b1 - 0x80) * 64 + (b2 - 0x80) ∧
       (b0 - 0xE0) * 4096 + (b1 - 0x80) * 64 + (b2 - 0x80) < 0xE000))) :
    encCharStrict ((b0 - 0xE0) * 4096 + (b1 - 0x80) * 64 + (b2 - 0x80)) = some [b0, b1, b2] := by
  unfold encCharStrict encChar
  rw [if_neg (by omega), if_neg (by omega), if_neg (by omega), if_neg (by omega),
    if_pos (by omega)]
  simp only [Option.some.injEq, List.cons.injEq, and_true]
  refine ⟨by omega, by omega, by omega⟩

theorem encStrict_four {b0 b1 b2 b3 : Nat} (h0 : 0xF0 ≤ b0) (h1 : b0 < 0xF5)
    (h2 : 0x80 ≤ b1) (h3 : b1 < 0xC0) (h4 : 0x80 ≤ b2) (h5 : b2 < 0xC0)
    (h6 : 0x80 ≤ b3) (h7 : b3 < 0xC0)
    (hv : ¬((b0 - 0xF0) * 262144 + (b1 - 0x80) * 4096 + (b2 - 0x80) * 64 + (b3 - 0x80) < 0x10000 ∨
      0x10FFFF < (b0 - 0xF0) * 262144 + (b1 - 0x80) * 4096 + (b2 - 0x80) * 64 + (b3 - 0x80))) :
    encCharStrict ((b0 - 0xF0) * 262144 + (b1 - 0x80) * 4096 + (b2 - 0x80) * 64 + (b3 - 0x80)) =
      some [b0, b1, b2, b3] := by
  unfold encCharStrict encChar
  rw [if_neg (by omega), if_neg (by omega), if_neg (by omega), if_neg (by omega),
    if_neg (by omega)]
  simp only [Option.some.injEq, List.cons.injEq, and_true]
  refine ⟨by omega, by omega, by omega, by omega⟩

/-- Whatever the strict decoder accepts, the strict encoder maps back to
exactly the bytes consumed. -/
theorem decodeOne_enc {bs : List Nat} {c : Nat} {rest : List Nat}
    (h : decodeOne bs = some (c, rest)) :
    ∃ l, encCharStrict c = some l ∧ l ++ rest = bs := by
  match bs with
  | [] => simp [decodeOne] at h
  | b0 :: tl =>
    unfold decodeOne at h
    by_cases h0 : b0 < 0x80
    · simp [h0] at h
      obtain ⟨hc, hr⟩ := h
      exact ⟨[b0], by rw [← hc]; exact encStrict_one h0, by simp [hr]⟩
    · by_cases h1 : b0 < 0xC2
      · simp [h0, h1] at h
      · by_cases h2 : b0 < 0xE0
        · simp only [if_neg h0, if_neg h1, if_pos h2] at h
          match tl with
          | [] => simp at h
          | b1 :: tl1 =>
            by_cases hb1 : 0x80 ≤ b1 ∧ b1 < 0xC0
            · simp [hb1] at h
              obtain ⟨hc, hr⟩ := h
              refine ⟨[b0, b1], ?_, by simp [hr]⟩
              rw [← hc]
              exact encStrict_two (by omega) h2 hb1.1 hb1.2
            · simp [hb1] at h
        · by_cases h3 : b0 < 0xF0
          · simp only [if_neg h0, if_neg h1, if_neg h2, if_pos h3] at h
            match tl with
            | [] => simp at h
            | [b1] => simp at h
            | b1 :: b2 :: tl2 =>
              by_cases hb : (0x80 ≤ b1 ∧ b1 < 0xC0) ∧ (0x80 ≤ b2 ∧ b2 < 0xC0)
              · simp only [if_pos hb] at h
                split at h
                · simp at h
                · simp at h
                  obtain ⟨hc, hr⟩ := h
                  rename_i hv
                  refine ⟨[b0, b1, b2], ?_, by simp [hr]⟩
                  rw [← hc]
                  exact encStrict_three (by omega) h3 hb.1.1 hb.1.2 hb.2.1 hb.2.2 hv
              · simp [hb] at h
          · by_cases h4 : b0 < 0xF5
            · simp only [if_neg h0, if_neg h1, if_neg h2, if_neg h3, if_pos h4] at h
              match tl with
              | [] => simp at h
              | [b1] => simp at h
              | [b1, b2] => simp at h
              | b1 :: b2 :: b3 :: tl3 =>
                by_cases hb : (0x80 ≤ b1 ∧ b1 < 0xC0) ∧ ((0x80 ≤ b2 ∧ b2 < 0xC0) ∧ (0x80 ≤ b3 ∧ b3 < 0xC0))
                · simp only [if_pos hb] at h
                  split at h
                  · simp at h
                  · simp at h
                    obtain ⟨hc, hr⟩ := h
                    rename_i hv
                    refine ⟨[b0, b1, b2, b3], ?_, by simp [hr]⟩
                    rw [← hc]
                    exact encStrict_four (by omega) h4 hb.1.1 hb.1.2 hb.2.1.1 hb.2.1.2
                      hb.2.2.1 hb.2.2.2 hv
                · simp [hb] at h
            · simp [h0, h1, h2, h3, h4] at h

/-- Decode-then-encode round trip at the loop level. -/
theorem decLoop_enc : ∀ (fuel : Nat) (bs cs : List Nat),
    decLoop fuel bs = some cs → enc cs = some bs := by
  intro fuel
  induction fuel with
  | zero =>
    intro bs cs h
    match bs with
    | [] =>
      simp [decLoop] at h
      subst h
      rfl
    | b :: tl => simp [decLoop] at h
  | succ n ih =>
    intro bs cs h
    match bs with
    | [] =>
      simp [decLoop] at h
      subst h
      rfl
    | b :: tl =>
      unfold decLoop at h
      match hd : decodeOne (b :: tl) with
      | none => rw [hd] at h; simp at h
      | some (c, rest) =>
        rw [hd] at h
        simp at h
        obtain ⟨cs', hloop, hcs⟩ := h
        obtain ⟨l, hl, hlb⟩ := decodeOne_enc hd
        have hrest := ih rest cs' hloop
        unfold enc at hrest ⊢
        match hm : cs'.mapM encCharStrict with
        | none => rw [hm] at hrest; simp at hrest
        | some L =>
          rw [hm] at hrest
          simp at hrest
          rw [← hcs]
          rw [List.mapM_cons, hl, hm]
          simp [hrest, hlb]

/-- Decode-then-encode: any byte string the strict UTF-8 decoder accepts
is re-encoded to exactly itself. -/
theorem dec_enc {bs cs : List Nat} (h : dec bs = some cs) : enc cs = some bs :=
  decLoop_enc bs.length bs cs h

theorem decField_encField {o o' : Option (List Nat)}
    (h : decField o = some o') : encField o' = some o := by
  match o with
  | none =>
    simp [decField] at h
    subst h
    rfl
  | some b =>
    simp [decField] at h
    obtain ⟨cs, hdec, hco⟩ := h
    subst hco
    simp [encField, dec_enc hdec]

theorem headers_dec_enc : ∀ (hs hs' : List (List Nat × List Nat)),
    decHeaders hs = some hs' → encHeaders hs' = some hs := by
  intro hs
  induction hs with
  | nil =>
    intro hs' h
    simp [decHeaders] at h
    subst h
    rfl
  | cons p tl ih =>
    intro hs' h
    match p with
    | (k, v) =>
      unfold decHeaders at h
      match hk : dec k with
      | none => rw [hk] at h; simp at h
      | some k' =>
        rw [hk] at h
        match hv : dec v with
        | none => rw [hv] at h; simp at h
        | some v' =>
          rw [hv] at h
          match htl : decHeaders tl with
          | none => rw [htl] at h; simp at h
          | some tl' =>
            rw [htl] at h
            simp at h
            subst h
            unfold encHeaders
            rw [dec_enc hk, dec_enc hv, ih tl' htl]
            rfl

/-- Decode-then-encode round trip of the full message state: whenever
`serialize` succeeds, `deserialize` restores the state exactly,
including header order and duplicate headers. -/
theorem serialize_deserialize {st : MessageState} {s : SerializedState}
    (h : serialize st = some s) : deserialize s = some st := by
  simp only [serialize, Option.bind_eq_bind, Option.bind_eq_some, Option.some.injEq,
    Option.pure_def] at h
  obtain ⟨c, h1, hv, h2, sc, h3, au, h4, pa, h5, me, h6, re, h7, hs, h8, hfin⟩ := h
  subst hfin
  simp only [deserialize, decField_encField h1, decField_encField h2, decField_encField h3,
    decField_encField h4, decField_encField h5, decField_encField h6, decField_encField h7,
    headers_dec_enc _ _ h8, Option.bind_eq_bind, Option.some_bind, Option.pure_def]

/-! ## Replay lemmas -/

/-- A non-self flow: `next_response` is looked up at the pre-append
index, the request is appended either way. -/
theorem Test.request_nonself (s : TestState) (flow : HTTPFlow)
    (h : flow.request.host ≠ pystr "crucible") :
    Test.request (some s) flow =
      (some ⟨s.requests ++ [flow.request], s.test_case⟩,
        match s.next_response with
        | none => FlowOutcome.killed
        | some resp => FlowOutcome.replied resp) := by
  unfold Test.request
  dsimp only
  rw [if_pos h]
  match s.next_response with
  | none => rfl
  | some resp => rfl

theorem next_response_inbounds (s : TestState)
    (h : s.requests.length < s.test_case.actions.length) :
    s.next_response = some (s.test_case.actions.get ⟨s.requests.length, h⟩).response := by
  unfold TestState.next_response
  rw [dif_pos h]

theorem next_response_exhausted (s : TestState)
    (h : s.test_case.actions.length ≤ s.requests.length) :
    s.next_response = none := by
  unfold TestState.next_response
  rw [dif_neg (by omega)]

/-- As long as recorded actions remain, each non-self flow is answered
with the action at the current observed count. -/
theorem runReplay_inbounds : ∀ (fs : List HTTPFlow) (s : TestState),
    (∀ f ∈ fs, f.request.host ≠ pystr "crucible") →
    s.requests.length + fs.length ≤ s.test_case.actions.length →
    (runReplay (some s) fs).2 =
      ((s.test_case.actions.drop s.requests.length).take fs.length).map
        (fun a => FlowOutcome.replied a.response) := by
  intro fs
  induction fs with
  | nil => intro s _ _; simp [runReplay]
  | cons f fs ih =>
    intro s hns hlen
    have hf : f.request.host ≠ pystr "crucible" := hns f (List.mem_cons_self f fs)
    have hlt : s.requests.length < s.test_case.actions.length := by
      simp at hlen; omega
    show (runReplay (some s) (f :: fs)).2 = _
    unfold runReplay
    rw [Test.request_nonself s f hf, next_response_inbounds s hlt]
    have ih' := ih ⟨s.requests ++ [f.request], s.test_case⟩
      (fun g hg => hns g (List.mem_cons_of_mem f hg))
      (by simp at hlen ⊢; omega)
    simp only [List.length_append, List.length_cons, List.length_nil] at ih'
    rw [List.drop_eq_getElem_cons hlt]
    simp only [List.take_succ_cons, List.map_cons]
    rw [show (s.test_case.actions.get ⟨s.requests.length, hlt⟩) =
      s.test_case.actions[s.requests.length] from rfl]
    exact congrArg _ (by simpa using ih')

/-- The state after a run: every non-self request was appended, in
order; the test case never changes; the state never becomes `None`. -/
theorem runReplay_state : ∀ (fs : List HTTPFlow) (s : TestState),
    (runReplay (some s) fs).1 =
      some ⟨s.requests ++
        (fs.filter (fun f => f.request.host ≠ pystr "crucible")).map (·.request),
        s.test_case⟩ := by
  intro fs
  induction fs with
  | nil => intro s; simp [runReplay]
  | cons f fs ih =>
    intro s
    show (runReplay (Test.request (some s) f).1 fs).1 = _
    by_cases hf : f.request.host ≠ pystr "crucible"
    · rw [Test.request_nonself s f hf]
      have step1 : (Test.request (some s) f).1 =
          some ⟨s.requests ++ [f.request], s.test_case⟩ := by
        rw [Test.request_nonself s f hf]
      rw [show ((some ⟨s.requests ++ [f.request], s.test_case⟩,
          match s.next_response with
          | none => FlowOutcome.killed
          | some resp => FlowOutcome.replied resp) :
            Option TestState × FlowOutcome).1 =
          some ⟨s.requests ++ [f.request], s.test_case⟩ from rfl]
      rw [ih ⟨s.requests ++ [f.request], s.test_case⟩]
      rw [List.filter_cons_of_pos (by simpa using hf)]
      simp
    · push_neg at hf
      have : Test.request (some s) f = (some s, FlowOutcome.passedThrough) := by
        unfold Test.request
        dsimp only
        rw [if_neg (by simpa using hf)]
      rw [this]
      rw [ih s]
      rw [List.filter_cons_of_neg (by simpa using hf)]

theorem runReplay_cons (ts : Option TestState) (f : HTTPFlow) (fs : List HTTPFlow) :
    runReplay ts (f :: fs) =
      ((runReplay (Test.request ts f).1 fs).1,
       (Test.request ts f).2 :: (runReplay (Test.request ts f).1 fs).2) := rfl

/-- Splitting a run. -/
theorem runReplay_append (ts : Option TestState) (xs ys : List HTTPFlow) :
    runReplay ts (xs ++ ys) =
      ((runReplay (runReplay ts xs).1 ys).1,
       (runReplay ts xs).2 ++ (runReplay (runReplay ts xs).1 ys).2) := by
  induction xs generalizing ts with
  | nil => simp [runReplay]
  | cons f xs ih =>
    rw [List.cons_append, runReplay_cons, ih]
    rw [runReplay_cons ts f xs]
    simp

/-- C2: replaying an N-action test case against exactly N non-self
requests yields, in order, the N stored responses; the k-th intercepted
request is answered with the k-th stored response. -/
theorem replay_ordering (s : TestState) (fs : List HTTPFlow)
    (hreq : s.requests = [])
    (hns : ∀ f ∈ fs, f.request.host ≠ pystr "crucible")
    (hlen : fs.length = s.test_case.actions.length) :
    (runReplay (some s) fs).2 =
      s.test_case.actions.map (fun a => FlowOutcome.replied a.response) := by
  have h := runReplay_inbounds fs s hns (by rw [hreq]; simp [hlen])
  rw [h, hreq]
  simp [hlen]

/-- C3: after the N recorded actions are consumed, the (N+1)-th
non-self request is killed — neither forwarded (`passedThrough`) nor
answered (`replied`). -/
theorem replay_exhaustion (s : TestState) (fs : List HTTPFlow) (f : HTTPFlow)
    (hreq : s.requests = [])
    (hns : ∀ g ∈ fs, g.request.host ≠ pystr "crucible")
    (hf : f.request.host ≠ pystr "crucible")
    (hlen : fs.length = s.test_case.actions.length) :
    (runReplay (some s) (fs ++ [f])).2 =
      s.test_case.actions.map (fun a => FlowOutcome.replied a.response) ++
        [FlowOutcome.killed] := by
  rw [runReplay_append]
  have hfirst := runReplay_inbounds fs s hns (by rw [hreq]; simp [hlen])
  have hstate := runReplay_state fs s
  have hfilter : fs.filter (fun g => g.request.host ≠ pystr "crucible") = fs := by
    rw [List.filter_eq_self]
    intro g hg
    simpa using hns g hg
  have hsecond : (runReplay (runReplay (some s) fs).1 [f]).2 = [FlowOutcome.killed] := by
    rw [hstate, hfilter, hreq]
    have h1 := Test.request_nonself ⟨[] ++ fs.map (·.request), s.test_case⟩ f hf
    have h2 : TestState.next_response ⟨[] ++ fs.map (·.request), s.test_case⟩ = none :=
      next_response_exhausted _ (by simp [hlen])
    rw [h2] at h1
    rw [runReplay_cons, h1]
    rfl
  rw [hfirst, hsecond, hreq]
  simp [hlen]

theorem replay_ordering_witness :
    (∀ f ∈ [flowEx], f.request.host ≠ pystr "crucible") ∧
    (runReplay (some tsEx) [flowEx]).2 = [FlowOutcome.replied respEx] :=
  ⟨by decide, replay_ordering tsEx [flowEx] rfl (by decide) rfl⟩

theorem replay_exhaustion_witness :
    (runReplay (some tsEx) ([flowEx] ++ [flowEx])).2 =
      [FlowOutcome.replied respEx, FlowOutcome.killed] :=
  replay_exhaustion tsEx [flowEx] flowEx rfl (by decide) (by decide) rfl

/-- C10: every non-self intercepted request is appended to the session's
observed list, in order, including when the recorded sequence is
exhausted and the flow is killed; hence the observed count equals the
number of non-self requests issued, which is exactly the count
`check_test`'s mismatch comparison sees. -/
theorem replay_observes_every_nonself_request (s : TestState) (fs : List HTTPFlow) :
    (runReplay (some s) fs).1 =
      some ⟨s.requests ++
        (fs.filter (fun f => f.request.host ≠ pystr "crucible")).map (·.request),
        s.test_case⟩ ∧
    (check_test (runReplay (some s) fs).1 =
        CheckResult.okMsg (pystr "Wrong number of requests received") ↔
      s.requests.length +
        (fs.filter (fun f => f.request.host ≠ pystr "crucible")).length ≠
        s.test_case.actions.length) := by
  refine ⟨runReplay_state fs s, ?_⟩
  rw [runReplay_state fs s]
  unfold check_test
  dsimp only
  split
  · rename_i h
    simp only [List.length_append, List.length_map] at h
    simpa using h
  · rename_i h
    simp only [List.length_append, List.length_map] at h
    push_neg at h
    simp only [ne_eq, decide_not] at h
    simp [h]

/-- C6: a flow addressed to the harness's own control authority
(`crucible`) is neither recorded nor counted during replay. -/
theorem self_exclusion (tid : Option PyStr) (rec : List Action)
    (ts : Option TestState) (flow : HTTPFlow)
    (h : flow.request.host = pystr "crucible") :
    Record.response tid rec flow = rec ∧
    Test.request ts flow = (ts, FlowOutcome.passedThrough) := by
  constructor
  · unfold Record.response
    rw [if_neg (by simp [h])]
  · match ts with
    | none => rfl
    | some s =>
      unfold Test.request
      dsimp only
      rw [if_neg (by simp [h])]

theorem self_exclusion_witness :
    Record.response (some (pystr "t1")) [actEx] selfFlow = [actEx] ∧
    Test.request (some tsEx) selfFlow = (some tsEx, FlowOutcome.passedThrough) :=
  self_exclusion (some (pystr "t1")) [actEx] (some tsEx) selfFlow rfl

/-- C4 counterexample: the expectation requires header `Host` to match
by value and requires `Authorization`/`X-Amz-Date` to exist, the live
request carries no header whatsoever, yet `validate_request` reports no
violation — the code checks only the URI, not clauses (b)–(e). -/
theorem validate_request_ignores_headers :
    ptHost.headers = [(pystr "Host", pystr "example.com")] ∧
    ptHost.requireHeaders ≠ [] ∧
    reqNoHeaders.headers = [] ∧
    reqNoHeaders.url = ptHost.uri ∧
    ProtocolTest.validate_request ptHost reqNoHeaders = [] := by
  exact ⟨rfl, by decide, rfl, rfl, by decide⟩

/-- C4 (amended): `compare` performs only check (a): it returns a single
violation carrying both the actual and the expected URI when they
differ, and no violation at all otherwise; header and query-parameter
clauses are never checked. -/
theorem validate_request_uri_only (pt : ProtocolTest) (r : HTTPRequest) :
    (r.url = pt.uri → ProtocolTest.validate_request pt r = []) ∧
    (r.url ≠ pt.uri → ProtocolTest.validate_request pt r =
      [pystr "Incorrect URL actual: " ++ r.url ++ pystr " expected: " ++ pt.uri]) := by
  constructor
  · intro h
    unfold ProtocolTest.validate_request
    rw [if_neg (by simp [h])]
  · intro h
    unfold ProtocolTest.validate_request
    rw [if_pos h]

theorem validate_request_uri_only_witness :
    ProtocolTest.validate_request ptHost reqNoHeaders = [] ∧
    ProtocolTest.validate_request ptHost reqWrongUri =
      [pystr "Incorrect URL actual: " ++ reqWrongUri.url ++
        pystr " expected: " ++ ptHost.uri] :=
  ⟨(validate_request_uri_only ptHost reqNoHeaders).1 rfl,
   (validate_request_uri_only ptHost reqWrongUri).2 (by decide)⟩

/-- C5 counterexample: the derived expectation's extra-parameter bag
`params` is not empty — it is the placeholder `{"todo": "todo"}`. -/
theorem from_request_params_not_empty :
    (ProtocolTest.from_request reqObserved).map ProtocolTest.params =
      some [(pystr "todo", pystr "todo")] ∧
    [(pystr "todo", pystr "todo")] ≠ ([] : List (PyStr × PyStr)) := by
  constructor
  · rfl
  · decide

/-- C5 (amended): whenever `from_request` succeeds, the expectation has
the URI and method copied verbatim, the value-match header clause equal
to the fixed allow-list intersected with the headers actually present
(with their observed values), the existence clause equal to the fixed
presence allow-list regardless of observation, the forbidden-header and
all query clauses empty, `vendorParams` empty — and `params` equal to
the placeholder `{"todo": "todo"}` rather than empty. -/
theorem from_request_default (r : HTTPRequest) (pt : ProtocolTest)
    (h : ProtocolTest.from_request r = some pt) :
    pt.uri = r.url ∧ pt.method = r.method ∧
    pt.headers = (MUST_MATCH_HEADERS.filter (fun n => headerMem r.headers n)).map
      (fun n => (n, headerGet r.headers n)) ∧
    pt.requireHeaders = MUST_EXIST_HEADERS ∧
    pt.forbidHeaders = [] ∧
    pt.queryParams = [] ∧
    pt.forbidQueryParams = [] ∧
    pt.requireQueryParams = [] ∧
    pt.vendorParams = [] ∧
    pt.params = [(pystr "todo", pystr "todo")] := by
  unfold ProtocolTest.from_request at h
  match hc : r.state.content with
  | none => rw [hc] at h; cases h
  | some b =>
    rw [hc] at h
    dsimp only at h
    match hd : dec b with
    | none => rw [hd] at h; cases h
    | some body =>
      rw [hd] at h
      rw [Option.map_some'] at h
      cases h
      exact ⟨rfl, rfl, rfl, rfl, rfl, rfl, rfl, rfl, rfl, rfl⟩

theorem from_request_default_witness :
    ProtocolTest.from_request reqObserved = some ptObserved ∧
    ptObserved.uri = reqObserved.url ∧
    ptObserved.requireHeaders = MUST_EXIST_HEADERS ∧
    ptObserved.params = [(pystr "todo", pystr "todo")] :=
  ⟨rfl,
    (from_request_default reqObserved ptObserved rfl).1,
    (from_request_default reqObserved ptObserved rfl).2.2.2.1,
    (from_request_default reqObserved ptObserved rfl).2.2.2.2.2.2.2.2.2⟩

/-! ## Recording claims -/

/-- C7: calling `stop_recording` while no session is armed
(`test_id is None`) is not a no-op reporting zero actions: `save()`
evaluates `BASE_DIR / None`, which raises `TypeError`, so the endpoint
errors out and never returns `{"status": "ok", "actions": 0}`. -/
theorem stop_recording_idle_raises (rec : List Action) :
    stop_recording none rec = none := rfl

/-- `saveAction` fails whenever `from_request` fails, whatever the
serializations do. -/
theorem saveAction_none {a : Action}
    (h : ProtocolTest.from_request a.request = none) (i : Nat) :
    saveAction i a = none := by
  unfold saveAction
  match serialize a.request.state with
  | none => rfl
  | some reqSer =>
    match serialize a.response.state with
    | none => rfl
    | some respSer =>
      simp [h]

theorem saveLoop_none : ∀ (rec : List Action) (i : Nat),
    (∃ a ∈ rec, ProtocolTest.from_request a.request = none) →
    saveLoop i rec = none := by
  intro rec
  induction rec with
  | nil =>
    intro i h
    obtain ⟨a, ha, -⟩ := h
    cases ha
  | cons hd tl ih =>
    intro i h
    obtain ⟨a, ha, hfr⟩ := h
    unfold saveLoop
    rcases List.mem_cons.mp ha with heq | htl
    · subst heq
      rw [saveAction_none hfr i]
      rfl
    · match saveAction i hd with
      | none => rfl
      | some ws =>
        rw [ih (i + 1) ⟨a, htl, hfr⟩]
        rfl

/-- C9: deriving the default expectation is partial over request
bodies: a request whose body bytes are not valid UTF-8 makes
`from_request` raise, and `stop_recording` of a session containing such
an exchange fails while persisting instead of completing. -/
theorem from_request_partial_over_bodies (r : HTTPRequest) (b : List Nat)
    (hb : r.state.content = some b) (hdec : dec b = none) :
    ProtocolTest.from_request r = none ∧
    ∀ (tid : PyStr) (rec : List Action) (a : Action),
      a ∈ rec → a.request = r → stop_recording (some tid) rec = none := by
  have hfr : ProtocolTest.from_request r = none := by
    unfold ProtocolTest.from_request
    rw [hb]
    dsimp only
    rw [hdec]
    rfl
  refine ⟨hfr, ?_⟩
  intro tid rec a ha har
  unfold stop_recording save
  rw [saveLoop_none rec 0 ⟨a, ha, by rw [har]; exact hfr⟩]
  rfl

theorem from_request_partial_over_bodies_witness :
    ProtocolTest.from_request badBodyReq = none ∧
    stop_recording (some (pystr "t")) [badBodyAct] = none :=
  ⟨(from_request_partial_over_bodies badBodyReq [0xFF] rfl rfl).1,
   (from_request_partial_over_bodies badBodyReq [0xFF] rfl rfl).2
      (pystr "t") [badBodyAct] badBodyAct (List.mem_singleton.mpr rfl) rfl⟩

/-! ## Test case store claims -/

/-- Success characterization of the scan loop: at most `fuel` actions
come back; every index that was counted had all three artifacts; the
scan stopped because the fuel ran out or the next request file is
missing. -/
theorem loadLoop_spec : ∀ (fuel i : Nat) (files : Nat → IndexFiles) (as : List Action),
    loadLoop files i fuel = .ok as →
    as.length ≤ fuel ∧
    (∀ j, j < as.length →
      ((files (i + j)).request).isSome ∧ ((files (i + j)).response).isSome ∧
      ((files (i + j)).protocolTest).isSome) ∧
    (as.length = fuel ∨ (files (i + as.length)).request = none) := by
  intro fuel
  induction fuel with
  | zero =>
    intro i files as h
    unfold loadLoop at h
    cases h
    exact ⟨Nat.le_refl 0, fun j hj => absurd hj (by simp), Or.inl rfl⟩
  | succ n ih =>
    intro i files as h
    unfold loadLoop at h
    match hreq : (files i).request with
    | none =>
      rw [hreq] at h
      cases h
      exact ⟨Nat.zero_le _, fun j hj => absurd hj (by simp), Or.inr (by simpa using hreq)⟩
    | some reqSer =>
      rw [hreq] at h
      dsimp only at h
      match hdr : deserialize reqSer with
      | none => rw [hdr] at h; cases h
      | some reqState =>
        rw [hdr] at h
        dsimp only at h
        match hresp : (files i).response with
        | none => rw [hresp] at h; cases h
        | some respSer =>
          rw [hresp] at h
          dsimp only at h
          match hds : deserialize respSer with
          | none => rw [hds] at h; cases h
          | some respState =>
            rw [hds] at h
            dsimp only at h
            match hpt : (files i).protocolTest with
            | none => rw [hpt] at h; cases h
            | some pt =>
              rw [hpt] at h
              dsimp only at h
              match hrest : loadLoop files (i + 1) n with
              | .error e => rw [hrest] at h; cases h
              | .ok rest =>
                rw [hrest] at h
                cases h
                obtain ⟨hlen, hall, hstop⟩ := ih (i + 1) files rest hrest
                refine ⟨by simpa using hlen, ?_, ?_⟩
                · intro j hj
                  match j with
                  | 0 =>
                    exact ⟨by simp [hreq], by simp [hresp], by simp [hpt]⟩
                  | j + 1 =>
                    have := hall j (by simpa using hj)
                    simpa [Nat.add_comm, Nat.add_assoc, Nat.add_left_comm] using this
                · rcases hstop with h1 | h2
                  · exact Or.inl (by simp [h1])
                  · refine Or.inr ?_
                    simpa [Nat.add_comm, Nat.add_assoc, Nat.add_left_comm] using h2

/-- C8: `load_testcase` fails with the not-found error when no storage
location exists; otherwise it scans zero-based indices until one has no
request artifact, bounded at 100; every index it counts has all three
artifacts present, and a counted index with a missing sibling artifact
makes loading fail rather than return a partial test case. -/
theorem load_contract :
    (∀ (tid : PyStr) (files : Nat → IndexFiles),
      load_testcase tid false files = .error .notFound) ∧
    (∀ (tid : PyStr) (files : Nat → IndexFiles) (tc : TestCase),
      load_testcase tid true files = .ok tc →
      tc.actions.length ≤ 100 ∧
      (∀ j, j < tc.actions.length →
        ((files j).request).isSome ∧ ((files j).response).isSome ∧
        ((files j).protocolTest).isSome) ∧
      (tc.actions.length = 100 ∨ (files tc.actions.length).request = none)) ∧
    (∀ (tid : PyStr) (files : Nat → IndexFiles),
      ((files 0).request).isSome →
      ((files 0).response = none ∨ (files 0).protocolTest = none) →
      ∃ e, load_testcase tid true files = .error e ∧ e ≠ .notFound) := by
  refine ⟨fun tid files => rfl, ?_, ?_⟩
  · intro tid files tc h
    unfold load_testcase at h
    rw [if_pos rfl] at h
    match hload : loadLoop files 0 100 with
    | .error e => rw [hload] at h; cases h
    | .ok as =>
      rw [hload] at h
      cases h
      have := loadLoop_spec 100 0 files as hload
      simpa using this
  · intro tid files hreq hmiss
    unfold load_testcase
    rw [if_pos rfl]
    match hr : (files 0).request with
    | none => rw [hr] at hreq; cases hreq
    | some reqSer =>
      show ∃ e, ((loadLoop files 0 100).map fun actions => TestCase.mk tid actions) =
        .error e ∧ e ≠ .notFound
      have h100 : (100 : Nat) = 99 + 1 := rfl
      rw [h100]
      unfold loadLoop
      rw [hr]
      dsimp only
      match hdr : deserialize reqSer with
      | none =>
        exact ⟨.badData, rfl, by decide⟩
      | some reqState =>
        dsimp only
        rcases hmiss with hm | hm
        · rw [hm]
          exact ⟨.fileNotFound, rfl, by decide⟩
        · match hresp : (files 0).response with
          | none =>
            exact ⟨.fileNotFound, rfl, by decide⟩
          | some respSer =>
            dsimp only
            match hds : deserialize respSer with
            | none =>
              exact ⟨.badData, rfl, by decide⟩
            | some respState =>
              dsimp only
              rw [hm]
              exact ⟨.fileNotFound, rfl, by decide⟩

theorem load_contract_witness :
    load_testcase (pystr "missing") false filesOne = .error .notFound ∧
    (tcLoaded.actions.length = 100 ∨ (filesOne tcLoaded.actions.length).request = none) ∧
    (∃ e, load_testcase (pystr "c") true filesCorrupt = .error e ∧ e ≠ .notFound) :=
  ⟨load_contract.1 (pystr "missing") filesOne,
   (load_contract.2.1 (pystr "t") filesOne tcLoaded rfl).2.2,
   load_contract.2.2 (pystr "c") filesCorrupt rfl (Or.inl rfl)⟩

/-! ## Codec claims -/

/-- C1 (amended): the codec round-trips field-for-field — header order
and duplicate headers included — exactly on the messages `serialize`
accepts, i.e. those whose byte fields are valid UTF-8; `serialize`
raises on any other message. -/
theorem codec_roundtrip_utf8 {m : MessageState} {s : SerializedState}
    (h : serialize m = some s) : deserialize s = some m :=
  serialize_deserialize h

/-- C1 counterexample: a message whose body is the byte `0xFF` cannot be
encoded at all — `serialize` raises `UnicodeDecodeError` — so
`decode(encode(m)) = m` fails for arbitrary binary content. -/
theorem codec_rejects_non_utf8 :
    serialize badUtf8Msg = none ∧
    ¬ ∃ s, serialize badUtf8Msg = some s ∧ deserialize s = some badUtf8Msg := by
  refine ⟨rfl, ?_⟩
  rintro ⟨s, hs, -⟩
  rw [show serialize badUtf8Msg = none from rfl] at hs
  cases hs

theorem codec_roundtrip_utf8_witness :
    serialize roundTripMsg = some roundTripSer ∧
    deserialize roundTripSer = some roundTripMsg :=
  ⟨rfl, codec_roundtrip_utf8 rfl⟩

end Crucible
